import Mathlib

/-!
Shallow embedding of the guarded identity-mutation protocol
(`identity/manager.go`) and the login flow request entity
(`selfservice/flow/login/request.go`) of the kratos repository, together
with proofs of the specified properties.

Conventions of the embedding:
* Go values are immutable Lean values; `deepcopy.Copy` is modelled by plain
  value binding, which already yields a structurally independent snapshot.
* A Go `nil` slice or map is distinguished from an empty one by wrapping the
  collection in `Option`.
* External collaborators (store contract, trait validator, verification code
  generator, wall clock) are passed to each operation as explicit arguments;
  a `Trace` records which store/validator calls an operation performed and
  with which arguments.
* The cancellable `context.Context` is modelled by a `Bool` (`true` means
  the context is already done); the manager merely forwards it to the store
  calls, exactly as the source does.
-/

/-- Credential types. Modelled from the spec: the credential-type enumeration
itself (password, social login, one-time code) is not among the sources in
scope; only its use as a map key is. -/
inductive CredentialsType
  | password
  | oidc
  | code
deriving DecidableEq

/-- Fixed enumeration of all credential types. It models iteration over a Go
map, whose iteration order is unspecified; every property proved below about
a rebuilt mapping is insensitive to this order. -/
def CredentialsType.all : List CredentialsType :=
  [CredentialsType.password, CredentialsType.oidc, CredentialsType.code]

instance : Fintype CredentialsType where
  elems := {CredentialsType.password, CredentialsType.oidc, CredentialsType.code}
  complete := by intro x; cases x <;> decide

/-- Modelled from the spec: a login `RequestMethod` holds per-credential-type
UI/error state; `method` is its credential-type discriminator and `config`
stands in for the remaining per-method state. The file declaring it is not
among the sources in scope. -/
structure RequestMethod where
  method : CredentialsType
  config : Nat
deriving DecidableEq

/-- The in-memory mapping form of `Request.Methods`: a Go map from credential
type to `*RequestMethod`, modelled extensionally as a function. -/
abbrev Methods := CredentialsType → Option RequestMethod

/-- The freshly made empty map `make(RequestMethods)`. -/
def emptyMethods : Methods := fun _ => none

/-- One step of `AfterFind`'s loop: the assignment `r.Methods[m.Method] = &m`. -/
def methodsInsert (acc : Methods) (e : RequestMethod) : Methods :=
  fun k => if k = e.method then some e else acc k

/-- The body of `AfterFind`: rebuild the mapping from the flat collection,
keyed by each element's own `Method` field; a later element overwrites an
earlier one carrying the same key. -/
def buildMethods (l : List RequestMethod) : Methods :=
  l.foldl methodsInsert emptyMethods

/-- The body of `BeforeSave`: flatten the mapping into the flat collection,
one element per populated key, in map-iteration order (modelled by the fixed
enumeration `CredentialsType.all`). -/
def flattenMethods (m : Methods) : List RequestMethod :=
  CredentialsType.all.filterMap m

/-- The login flow request (`login.Request`). Times are integers;
`methods`/`methodsRaw` are `Option`-wrapped so that a `nil` Go map or slice
is distinguished from an empty one. -/
structure Request where
  id : Nat
  expiresAt : Int
  issuedAt : Int
  requestURL : String
  active : Option CredentialsType
  methods : Option Methods
  methodsRaw : Option (List RequestMethod)
  createdAt : Int
  updatedAt : Int
  csrfToken : String
  forced : Bool
deriving DecidableEq

/-- `Request.BeforeSave`: flatten `Methods` into `MethodsRaw` (ranging over a
`nil` map yields the empty collection) and clear the mapping form. -/
def Request.beforeSave (r : Request) : Request :=
  { r with
    methodsRaw := some (flattenMethods (r.methods.getD emptyMethods)),
    methods := none }

/-- `Request.AfterFind`: rebuild `Methods` from `MethodsRaw` (ranging over a
`nil` slice yields the empty, non-nil map) and clear the collection form. -/
def Request.afterFind (r : Request) : Request :=
  { r with
    methods := some (buildMethods (r.methodsRaw.getD [])),
    methodsRaw := none }

/-- `Request.AfterCreate` delegates to `AfterFind`. -/
def Request.afterCreate (r : Request) : Request := r.afterFind

/-- `Request.AfterUpdate` delegates to `AfterFind`. -/
def Request.afterUpdate (r : Request) : Request := r.afterFind

/-- Errors produced by `Request.Valid`. The `flowExpired` payload is modelled
from the spec: `newRequestExpiredError` (not among the sources in scope)
carries the elapsed time since expiry. -/
inductive FlowErr
  | flowExpired (ago : Int)
  | badRequestFuture
deriving DecidableEq

/-- `Request.Valid`, with the current wall-clock time passed explicitly (the
source reads `time.Now()`; `time.Since(e)` is `now - e`). -/
def Request.valid (now : Int) (r : Request) : Option FlowErr :=
  if r.expiresAt < now then some (FlowErr.flowExpired (now - r.expiresAt))
  else if now < r.issuedAt then some FlowErr.badRequestFuture
  else none

/-- Traits are an arbitrary schema-validated document; the manager never
inspects their structure, so they are modelled by an opaque token. -/
abbrev Traits := Nat

abbrev UUID := Nat

/-- Modelled from the spec: per-credential-type material/config and
identifiers (the credentials struct is not among the sources in scope). -/
structure Credential where
  identifiers : List String
  config : Nat
deriving DecidableEq

/-- The `Credentials` map of an identity, modelled extensionally. -/
abbrev Credentials := CredentialsType → Option Credential

/-- Modelled from the spec: a verifiable address with its value, delivery
channel, verification flag, current code and code expiry (the struct is not
among the sources in scope). -/
structure VerifiableAddress where
  value : String
  via : String
  verified : Bool
  code : String
  expiresAt : Int
deriving DecidableEq

/-- The identity record: id, traits, credentials and the (possibly `nil`)
ordered collection of verifiable addresses. -/
structure Identity where
  id : UUID
  traits : Traits
  credentials : Credentials
  addresses : Option (List VerifiableAddress)
deriving DecidableEq

/-- The options accumulated by `newManagerOptions`. -/
structure ManagerOptions where
  exposeValidationErrors : Bool := false
  allowWriteProtectedTraits : Bool := false
deriving DecidableEq

/-- A functional option, as in the source (`func(*managerOptions)`). -/
abbrev ManagerOption := ManagerOptions → ManagerOptions

/-- `ManagerExposeValidationErrors`. -/
def managerExposeValidationErrors : ManagerOption :=
  fun o => { o with exposeValidationErrors := true }

/-- `ManagerAllowWriteProtectedTraits`. -/
def managerAllowWriteProtectedTraits : ManagerOption :=
  fun o => { o with allowWriteProtectedTraits := true }

/-- `newManagerOptions`: fold the option functions over the zero value. -/
def newManagerOptions (opts : List ManagerOption) : ManagerOptions :=
  opts.foldl (fun o f => f o) {}

/-- Errors originating in the store contract. Kept separate from `Err` so
that the manager's own sentinel errors cannot be forged by a store model. -/
inductive StoreErr
  | notFound
  | canceled
  | failure (n : Nat)
deriving DecidableEq

/-- Validator outcomes: a structured JSON-schema validation failure (what
`errorsx.Cause(err).(*jsonschema.ValidationError)` matches) or any other
validator error, each carrying an opaque payload. -/
inductive VErr
  | schema (d : Nat)
  | nonSchema (d : Nat)
deriving DecidableEq

/-- Errors returned by the manager's operations. -/
inductive Err
  | store (e : StoreErr)
  | protectedFieldModified
  | badRequestWrapped (d : Nat)
  | schemaFailure (d : Nat)
  | validatorFailure (d : Nat)
  | entropyFailure (n : Nat)
deriving DecidableEq

/-- The trait validator contract. Go hands the identity to the validator by
pointer, so the validator may also mutate it: it is modelled as returning
the (possibly updated) identity together with an optional error. -/
abbrev Validator := Identity → Identity × Option VErr

/-- Record of the external calls an operation performed, with their
arguments, in the order of the source. -/
structure Trace where
  validateArgs : List Identity := []
  createIdentityArgs : List Identity := []
  updateIdentityArgs : List Identity := []
  updateAddressArgs : List VerifiableAddress := []
deriving DecidableEq

/-- Result of a manager operation on an identity: the returned error, the
final state of the caller-visible working identity (`none` when the
confidential read failed and no working identity exists) and the trace of
external calls. -/
structure OpResult where
  err : Option Err
  identity : Option Identity
  trace : Trace
deriving DecidableEq

/-- `Manager.validate`'s error mapping: a schema validation failure is
wrapped into a generic bad-request error unless `ExposeValidationErrors`
was passed; any other validator error is propagated verbatim. -/
def Manager.validateErr (o : ManagerOptions) : VErr → Err
  | VErr.schema d =>
      if o.exposeValidationErrors then Err.schemaFailure d else Err.badRequestWrapped d
  | VErr.nonSchema d => Err.validatorFailure d

/-- Modelled from the spec: `CredentialsEqual` (its source is not in scope)
is a semantic map equality, insensitive to iteration/key order and sensitive
to every credential type's configuration and identifiers; map extensionality
gives exactly that. -/
def CredentialsEqual (a b : Credentials) : Bool :=
  decide (∀ k, a k = b k)

/-- Length of a possibly-`nil` address collection (`len` of a `nil` Go slice
is zero). -/
def addressesLen : Option (List VerifiableAddress) → Nat
  | none => 0
  | some l => l.length

/-- The `UpdateTraits` address guard condition:
`!reflect.DeepEqual(original.Addresses, identity.Addresses)` conjoined with
`len(original.Addresses)+len(identity.Addresses) != 0` (the latter prevents
`nil` versus empty from firing the guard). -/
def addressesGuardFires (original working : Option (List VerifiableAddress)) : Bool :=
  decide (¬ original = working) && decide (¬ addressesLen original + addressesLen working = 0)

/-- `Manager.Create`: validate, then delegate to the privileged store
create. The context is only forwarded to the store call. -/
def Manager.create (ctx : Bool) (validator : Validator)
    (createIdentity : Bool → Identity → Option StoreErr)
    (i : Identity) (opts : List ManagerOption) : OpResult :=
  let o := newManagerOptions opts
  let v := validator i
  match v.2 with
  | some e =>
      { err := some (Manager.validateErr o e), identity := some v.1,
        trace := { validateArgs := [i] } }
  | none =>
      { err := (createIdentity ctx v.1).map Err.store, identity := some v.1,
        trace := { validateArgs := [i], createIdentityArgs := [v.1] } }

/-- `Manager.Update`: validate, then delegate to the privileged store
update; no protected-field guard. -/
def Manager.update (ctx : Bool) (validator : Validator)
    (updateIdentity : Bool → Identity → Option StoreErr)
    (i : Identity) (opts : List ManagerOption) : OpResult :=
  let o := newManagerOptions opts
  let v := validator i
  match v.2 with
  | some e =>
      { err := some (Manager.validateErr o e), identity := some v.1,
        trace := { validateArgs := [i] } }
  | none =>
      { err := (updateIdentity ctx v.1).map Err.store, identity := some v.1,
        trace := { validateArgs := [i], updateIdentityArgs := [v.1] } }

/-- `Manager.UpdateTraits`: confidential read, snapshot, replace traits,
validate, protected-field guard (credentials, then addresses) with
restore-on-violation, then privileged store update. -/
def Manager.updateTraits (ctx : Bool)
    (getIdentityConfidential : Bool → Except StoreErr Identity)
    (validator : Validator)
    (updateIdentity : Bool → Identity → Option StoreErr)
    (traits : Traits) (opts : List ManagerOption) : OpResult :=
  let o := newManagerOptions opts
  match getIdentityConfidential ctx with
  | Except.error e => { err := some (Err.store e), identity := none, trace := {} }
  | Except.ok identity0 =>
      let original := identity0
      let identity1 := { identity0 with traits := traits }
      let v := validator identity1
      let tr : Trace := { validateArgs := [identity1] }
      match v.2 with
      | some e =>
          { err := some (Manager.validateErr o e), identity := some v.1, trace := tr }
      | none =>
          if !o.allowWriteProtectedTraits && !CredentialsEqual v.1.credentials original.credentials then
            { err := some Err.protectedFieldModified, identity := some original, trace := tr }
          else if !o.allowWriteProtectedTraits && addressesGuardFires original.addresses v.1.addresses then
            { err := some Err.protectedFieldModified, identity := some original, trace := tr }
          else
            { err := (updateIdentity ctx v.1).map Err.store, identity := some v.1,
              trace := { tr with updateIdentityArgs := [v.1] } }

/-- Result of `RefreshVerifyAddress`: the returned error, the final state of
the caller-visible address, and the trace of external calls. -/
structure RefreshResult where
  err : Option Err
  address : VerifiableAddress
  trace : Trace
deriving DecidableEq

/-- `Manager.RefreshVerifyAddress`: generate a code (`newVerifyCode` models
the generator's outcome; an error payload is propagated as an unrecoverable
entropy failure), set `Code` and `ExpiresAt = now + lifespan` on the
address, then persist it via the store's `UpdateVerifiableAddress`. -/
def Manager.refreshVerifyAddress (ctx : Bool)
    (newVerifyCode : Except Nat String)
    (now lifespan : Int)
    (updateVerifiableAddress : Bool → VerifiableAddress → Option StoreErr)
    (a : VerifiableAddress) : RefreshResult :=
  match newVerifyCode with
  | Except.error n => { err := some (Err.entropyFailure n), address := a, trace := {} }
  | Except.ok c =>
      let a' := { a with code := c, expiresAt := now + lifespan }
      { err := (updateVerifiableAddress ctx a').map Err.store, address := a',
        trace := { updateAddressArgs := [a'] } }

/-! Concrete inputs used by witnesses and counterexamples. -/

/-- A base login flow request with all fields at zero values. -/
def baseRequest : Request :=
  { id := 0, expiresAt := 0, issuedAt := 0, requestURL := "", active := none,
    methods := none, methodsRaw := none, createdAt := 0, updatedAt := 0,
    csrfToken := "", forced := false }

/-- A request that is both expired and issued in the future at time 0. -/
def rPast : Request := { baseRequest with expiresAt := -1, issuedAt := 1 }

/-- A request issued in the future but not expired at time 0. -/
def rFut : Request := { baseRequest with expiresAt := 10, issuedAt := 1 }

/-- A request that is neither expired nor issued in the future at time 0. -/
def rOk : Request := { baseRequest with expiresAt := 10, issuedAt := 0 }

/-- A `Methods` mapping whose single entry is keyed under `password` but
carries `oidc` in its own `Method` field. -/
def mBad : Methods := fun k =>
  match k with
  | CredentialsType.password => some { method := CredentialsType.oidc, config := 7 }
  | _ => none

/-- A request carrying the incoherently keyed mapping `mBad`. -/
def rBad : Request := { baseRequest with methods := some mBad }

/-- A `Methods` mapping in which every entry's key equals the entry's own
`Method` field. -/
def mGood : Methods := fun k =>
  match k with
  | CredentialsType.password => some { method := CredentialsType.password, config := 1 }
  | CredentialsType.oidc => some { method := CredentialsType.oidc, config := 2 }
  | CredentialsType.code => none

/-- A request carrying the coherently keyed mapping `mGood`. -/
def rGood : Request := { baseRequest with methods := some mGood }

/-- A request whose raw collection holds two elements with the same
credential type; the later one must win on rebuild. -/
def rRaw : Request :=
  { baseRequest with
    methodsRaw := some [{ method := CredentialsType.password, config := 1 },
                        { method := CredentialsType.password, config := 9 }] }

/-- A concrete identity with no credentials and a `nil` address collection. -/
def cIdentity : Identity :=
  { id := 0, traits := 0, credentials := fun _ => none, addresses := none }

/-- A concrete password credential. -/
def cCredential : Credential := { identifiers := ["a"], config := 0 }

/-- `cIdentity` after a trait update to `5` on which a password credential
was smuggled in en route. -/
def cTampered : Identity :=
  { cIdentity with
    traits := 5,
    credentials := fun k => if k = CredentialsType.password then some cCredential else none }

/-- A store read that always finds `cIdentity`. -/
def cRead : Bool → Except StoreErr Identity := fun _ => Except.ok cIdentity

/-- A store read that honors the context: it fails with a cancellation
error exactly when the context is already done. -/
def cReadCtx : Bool → Except StoreErr Identity :=
  fun ctx => if ctx then Except.error StoreErr.canceled else Except.ok cIdentity

/-- A validator that accepts and leaves the identity untouched. -/
def cValidatorOk : Validator := fun i => (i, none)

/-- A validator that accepts but smuggles a password credential into the
identity through the pointer it receives. -/
def cValidatorTamper : Validator := fun i =>
  ({ i with credentials := fun k => if k = CredentialsType.password then some cCredential else none },
   none)

/-- A validator that reports a structured schema validation failure. -/
def cValidatorSchemaFail : Validator := fun i => (i, some (VErr.schema 3))

/-- A store write that always succeeds. -/
def cUpd : Bool → Identity → Option StoreErr := fun _ _ => none

/-- A store write that honors the context: it fails with a cancellation
error exactly when the context is already done. -/
def cUpdCtx : Bool → Identity → Option StoreErr :=
  fun ctx _ => if ctx then some StoreErr.canceled else none

/-- A verifiable-address store write that honors the context. -/
def cUpdAddrCtx : Bool → VerifiableAddress → Option StoreErr :=
  fun ctx _ => if ctx then some StoreErr.canceled else none

/-- A verifiable-address store write that always succeeds. -/
def cUpdAddr : Bool → VerifiableAddress → Option StoreErr := fun _ _ => none

/-- A concrete unverified address. -/
def cAddress : VerifiableAddress :=
  { value := "a@b", via := "email", verified := false, code := "old", expiresAt := 0 }

/-! Helper lemmas about the `Methods` storage adapters. -/

/-- Folding inserts whose keys all differ from `k` leaves the value at `k`
untouched. -/
theorem foldl_methodsInsert_skip :
    ∀ (l : List RequestMethod) (acc : Methods) (k : CredentialsType),
      (∀ e ∈ l, e.method ≠ k) → l.foldl methodsInsert acc k = acc k := by
  intro l
  induction l with
  | nil => intro acc k h; rfl
  | cons e t ih =>
    intro acc k h
    simp only [List.foldl_cons]
    rw [ih _ k (fun e' he' => h e' (List.mem_cons_of_mem _ he'))]
    simp only [methodsInsert]
    rw [if_neg]
    exact fun hk => h e (List.mem_cons_self _ _) hk.symm

/-- The rebuild keeps the last element carrying a given key: inserting `e`
and then only elements with other keys yields `e` at `e.method`. -/
theorem buildMethods_append_last (l₁ l₂ : List RequestMethod) (e : RequestMethod)
    (h : ∀ e' ∈ l₂, e'.method ≠ e.method) :
    buildMethods (l₁ ++ e :: l₂) e.method = some e := by
  unfold buildMethods
  rw [List.foldl_append, List.foldl_cons, foldl_methodsInsert_skip l₂ _ _ h]
  simp [methodsInsert]

/-- Any value reachable in a fold of inserts sits under its own `method`
key, provided the accumulator already satisfies that at `k`. -/
theorem foldl_methodsInsert_method_eq :
    ∀ (l : List RequestMethod) (acc : Methods) (k : CredentialsType) (v : RequestMethod),
      (∀ v', acc k = some v' → v'.method = k) →
      l.foldl methodsInsert acc k = some v → v.method = k := by
  intro l
  induction l with
  | nil => intro acc k v hacc h; exact hacc v h
  | cons e t ih =>
    intro acc k v hacc h
    refine ih _ k v ?_ h
    intro v' hv'
    by_cases hk : k = e.method
    · simp only [methodsInsert, if_pos hk] at hv'
      cases hv'
      exact hk.symm
    · simp only [methodsInsert, if_neg hk] at hv'
      exact hacc v' hv'

/-- Every entry of a rebuilt mapping sits under its own `method` key. -/
theorem buildMethods_method_eq (l : List RequestMethod) (k : CredentialsType)
    (v : RequestMethod) (h : buildMethods l k = some v) : v.method = k := by
  refine foldl_methodsInsert_method_eq l emptyMethods k v ?_ h
  intro v' hv'
  exact absurd hv' (by simp [emptyMethods])

/-- Rebuilding the flattening of a key-coherent mapping, key by key: the
fold over the flattened keys returns the mapping's value where the key was
visited and populated, and the accumulator's value otherwise. -/
theorem foldl_filterMap_lookup (m : Methods)
    (hm : ∀ k v, m k = some v → v.method = k) :
    ∀ (ks : List CredentialsType) (acc : Methods) (k : CredentialsType),
      (ks.filterMap m).foldl methodsInsert acc k =
        if k ∈ ks ∧ (m k).isSome then m k else acc k := by
  intro ks
  induction ks with
  | nil => intro acc k; simp
  | cons k' t ih =>
    intro acc k
    rcases hk' : m k' with _ | v
    · rw [List.filterMap_cons_none hk', ih]
      by_cases hkk : k = k'
      · subst hkk
        simp [hk']
      · simp [List.mem_cons, hkk]
    · have hv : v.method = k' := hm k' v hk'
      rw [List.filterMap_cons_some hk', List.foldl_cons, ih]
      by_cases hkk : k = k'
      · subst hkk
        by_cases ht : k ∈ t ∧ (m k).isSome
        · simp [ht, List.mem_cons, hk']
        · simp only [ht, if_neg, if_false]
          simp only [List.mem_cons, methodsInsert, hv, if_pos rfl]
          simp [hk']
      · by_cases ht : k ∈ t ∧ (m k).isSome
        · simp [ht, List.mem_cons, ht.1]
        · have : ¬ ((k = k' ∨ k ∈ t) ∧ (m k).isSome = true) := by
            intro hc
            rcases hc with ⟨hm1 | hm2, hs⟩
            · exact hkk hm1
            · exact ht ⟨hm2, hs⟩
          simp only [List.mem_cons, this, if_neg, if_false, ht]
          simp [methodsInsert, hv, hkk]

/-- Round trip on a key-coherent mapping: rebuilding the flattening yields
the original mapping. -/
theorem buildMethods_flattenMethods (m : Methods)
    (hm : ∀ k v, m k = some v → v.method = k) :
    buildMethods (flattenMethods m) = m := by
  funext k
  unfold buildMethods flattenMethods
  rw [foldl_filterMap_lookup m hm CredentialsType.all emptyMethods k]
  have hk : k ∈ CredentialsType.all := by cases k <;> decide
  rcases hmk : m k with _ | v
  · simp [hk, hmk, emptyMethods]
  · simp [hk, hmk]

/-! Helper lemmas about the manager's guard. -/

/-- The spec-modelled semantic credentials equality is reflexive, so the
deep copy taken as snapshot always compares equal to an untouched map. -/
theorem CredentialsEqual_self (c : Credentials) : CredentialsEqual c c = true := by
  simp [CredentialsEqual]

/-- The address guard never fires on two structurally identical collections. -/
theorem addressesGuardFires_self (a : Option (List VerifiableAddress)) :
    addressesGuardFires a a = false := by
  simp [addressesGuardFires]

/-- A store error mapped into the manager's error type is never the
`ProtectedFieldModified` sentinel. -/
theorem map_store_ne_protected (o : Option StoreErr) :
    o.map Err.store ≠ some Err.protectedFieldModified := by
  cases o <;> simp

/-! Claim theorems for the login flow request. -/

/-- Claim C4 counterexample: a mapping whose single entry is keyed under
`password` but carries `oidc` in its `Method` field does not survive the
`BeforeSave`-then-`AfterFind` round trip, so the round trip does not yield a
mapping deep-equal to the original for every `Methods` mapping. -/
theorem c4_roundTrip_counterexample :
    (Request.afterFind (Request.beforeSave rBad)).methods ≠ some mBad := by
  decide

/-- Claim C4 (amended): for every `Methods` mapping whose entries are keyed
by their own `Method` field, flattening via `BeforeSave` and rebuilding via
`AfterFind` yields a mapping deep-equal to the original, for any number of
entries including zero; and when the raw collection contains several
elements tagged with the same credential-type key, the rebuilt mapping
keeps the later element (last write wins). -/
theorem c4_beforeSave_afterFind_roundTrip :
    (∀ (r : Request) (m : Methods),
        r.methods = some m →
        (∀ k v, m k = some v → v.method = k) →
        (Request.afterFind (Request.beforeSave r)).methods = some m) ∧
    (∀ (r : Request) (l₁ l₂ : List RequestMethod) (e : RequestMethod),
        r.methodsRaw = some (l₁ ++ e :: l₂) →
        (∀ e' ∈ l₂, e'.method ≠ e.method) →
        ∃ mm : Methods, (Request.afterFind r).methods = some mm ∧
          mm e.method = some e) := by
  constructor
  · intro r m hr hm
    simp only [Request.beforeSave, Request.afterFind, hr, Option.getD_some]
    rw [buildMethods_flattenMethods m hm]
  · intro r l₁ l₂ e hr h
    refine ⟨buildMethods (l₁ ++ e :: l₂), ?_, buildMethods_append_last l₁ l₂ e h⟩
    simp [Request.afterFind, hr]

/-- Claim C4 witness: the round trip restores a concrete two-entry coherent
mapping, and on a concrete raw collection with two `password` elements the
rebuilt mapping keeps the later one. -/
theorem c4_beforeSave_afterFind_roundTrip_witness :
    (Request.afterFind (Request.beforeSave rGood)).methods = some mGood ∧
    (∃ mm : Methods, (Request.afterFind rRaw).methods = some mm ∧
        mm (RequestMethod.mk CredentialsType.password 9).method =
          some (RequestMethod.mk CredentialsType.password 9)) :=
  ⟨c4_beforeSave_afterFind_roundTrip.1 rGood mGood rfl
      (by intro k v hv; cases k <;> simp [mGood] at hv <;> simp [← hv]),
   c4_beforeSave_afterFind_roundTrip.2 rRaw
      [RequestMethod.mk CredentialsType.password 1] []
      (RequestMethod.mk CredentialsType.password 9) rfl (by simp)⟩

/-- Claim C6: after `BeforeSave` the raw collection is populated and the
mapping is nil; after `AfterFind` the mapping is a non-nil (possibly empty)
map and the raw collection is nil; `AfterCreate` and `AfterUpdate` delegate
to `AfterFind`, so exactly one representation is populated after any hook. -/
theorem c6_hooks_single_representation (r : Request) :
    ((Request.beforeSave r).methodsRaw.isSome = true ∧
      (Request.beforeSave r).methods = none) ∧
    ((Request.afterFind r).methods.isSome = true ∧
      (Request.afterFind r).methodsRaw = none) ∧
    Request.afterCreate r = Request.afterFind r ∧
    Request.afterUpdate r = Request.afterFind r := by
  simp [Request.beforeSave, Request.afterFind, Request.afterCreate, Request.afterUpdate]

/-- Claim C7 counterexample: on a request that is both expired and issued in
the future, `Valid` returns the expiry error, not the bad-request error, so
"returns a generic bad-request error when IssuedAt is after the current
time" fails as stated. -/
theorem c7_valid_counterexample :
    (0 : Int) < rPast.issuedAt ∧
    Request.valid 0 rPast = some (FlowErr.flowExpired 1) ∧
    Request.valid 0 rPast ≠ some FlowErr.badRequestFuture := by
  decide

/-- Claim C7 (amended): `Valid` returns `FlowExpired` carrying the elapsed
time since expiry whenever `ExpiresAt` is before the current time; returns
the generic bad-request error when `ExpiresAt` is not in the past and
`IssuedAt` is after the current time; and returns no error when `ExpiresAt`
is not in the past and `IssuedAt` is not in the future. -/
theorem c7_valid_cases (now : Int) (r : Request) :
    (r.expiresAt < now →
      Request.valid now r = some (FlowErr.flowExpired (now - r.expiresAt))) ∧
    (¬ r.expiresAt < now → now < r.issuedAt →
      Request.valid now r = some FlowErr.badRequestFuture) ∧
    (¬ r.expiresAt < now → ¬ now < r.issuedAt →
      Request.valid now r = none) := by
  refine ⟨fun h => ?_, fun h1 h2 => ?_, fun h1 h2 => ?_⟩ <;>
    simp [Request.valid, *]

/-- Claim C7 witness: the three cases evaluated on concrete requests at
time 0. -/
theorem c7_valid_cases_witness :
    Request.valid 0 rPast = some (FlowErr.flowExpired 1) ∧
    Request.valid 0 rFut = some FlowErr.badRequestFuture ∧
    Request.valid 0 rOk = none :=
  ⟨(c7_valid_cases 0 rPast).1 (by decide),
   (c7_valid_cases 0 rFut).2.1 (by decide) (by decide),
   (c7_valid_cases 0 rOk).2.2 (by decide) (by decide)⟩

/-- Claim C10: every entry of a mapping rebuilt by `AfterFind` sits under
its own `Method` field; hence the `BeforeSave`-then-`AfterFind` round trip
restores the original mapping only when every original entry's key equals
its `Method` field; and the incoherent entry of `mBad` is silently re-keyed
from `password` to `oidc`. -/
theorem c10_afterFind_rekeys :
    (∀ (r : Request) (mm : Methods) (k : CredentialsType) (v : RequestMethod),
        (Request.afterFind r).methods = some mm → mm k = some v → v.method = k) ∧
    (∀ m : Methods, buildMethods (flattenMethods m) = m →
        ∀ k v, m k = some v → v.method = k) ∧
    (buildMethods (flattenMethods mBad) CredentialsType.password = none ∧
      buildMethods (flattenMethods mBad) CredentialsType.oidc =
        some (RequestMethod.mk CredentialsType.oidc 7)) := by
  refine ⟨?_, ?_, ?_⟩
  · intro r mm k v hm hv
    have h2 : (Request.afterFind r).methods = some (buildMethods (r.methodsRaw.getD [])) := rfl
    rw [hm] at h2
    refine buildMethods_method_eq (r.methodsRaw.getD []) k v ?_
    rw [← Option.some.inj h2]
    exact hv
  · intro m hrt k v hv
    refine buildMethods_method_eq (flattenMethods m) k v ?_
    rw [hrt]
    exact hv
  · constructor <;> decide

/-- Claim C10 witness: the re-keying facts applied to the concrete raw
collection of `rRaw` and to the coherent mapping `mGood`. -/
theorem c10_afterFind_rekeys_witness :
    (RequestMethod.mk CredentialsType.password 9).method = CredentialsType.password ∧
    (RequestMethod.mk CredentialsType.password 1).method = CredentialsType.password :=
  ⟨c10_afterFind_rekeys.1 rRaw
      (buildMethods [RequestMethod.mk CredentialsType.password 1,
                     RequestMethod.mk CredentialsType.password 9])
      CredentialsType.password (RequestMethod.mk CredentialsType.password 9) rfl (by decide),
   c10_afterFind_rekeys.2.1 mGood (by decide)
      CredentialsType.password (RequestMethod.mk CredentialsType.password 1) rfl⟩

/-! Claim theorems for the identity manager. -/

/-- Claim C3: the `UpdateTraits` address guard fires exactly on a structural
difference whose combined length is non-zero; in particular a nil collection
and an empty collection, though not structurally identical, compare equal
because the sum of their lengths is zero, and no other structural
difference is exempted. -/
theorem c3_addressesGuard_spec :
    (∀ o w : Option (List VerifiableAddress),
        addressesGuardFires o w = true ↔
          (¬ o = w ∧ ¬ addressesLen o + addressesLen w = 0)) ∧
    addressesGuardFires none (some []) = false ∧
    addressesGuardFires (some []) none = false ∧
    ¬ (none : Option (List VerifiableAddress)) = some ([] : List VerifiableAddress) := by
  refine ⟨?_, by decide, by decide, by decide⟩
  intro o w
  simp only [addressesGuardFires, Bool.and_eq_true, decide_eq_true_eq]

/-- Claim C3 witness: the nil-versus-empty special case evaluated. -/
theorem c3_addressesGuard_spec_witness :
    addressesGuardFires none (some []) = false :=
  c3_addressesGuard_spec.2.1

/-- Claim C1: when the confidential read succeeds and the traits pass
validation, `UpdateTraits` returns `ProtectedFieldModified` exactly when
the caller did not pass `AllowWriteProtectedTraits` and the working
identity's credentials or addresses differ, under the guard's equality,
from the confidential-read snapshot; and whenever it does, the working
identity has been restored in full to the snapshot and no store update was
invoked. -/
theorem c1_updateTraits_protected_iff
    (ctx : Bool) (read : Bool → Except StoreErr Identity) (validator : Validator)
    (upd : Bool → Identity → Option StoreErr) (t : Traits)
    (opts : List ManagerOption) (i i2 : Identity)
    (hread : read ctx = Except.ok i)
    (hval : validator { i with traits := t } = (i2, none)) :
    ((Manager.updateTraits ctx read validator upd t opts).err =
        some Err.protectedFieldModified ↔
      ((newManagerOptions opts).allowWriteProtectedTraits = false ∧
        (CredentialsEqual i2.credentials i.credentials = false ∨
          addressesGuardFires i.addresses i2.addresses = true))) ∧
    ((Manager.updateTraits ctx read validator upd t opts).err =
        some Err.protectedFieldModified →
      (Manager.updateTraits ctx read validator upd t opts).identity = some i ∧
      (Manager.updateTraits ctx read validator upd t opts).trace.updateIdentityArgs = []) := by
  cases hb : (newManagerOptions opts).allowWriteProtectedTraits <;>
    cases hc : CredentialsEqual i2.credentials i.credentials <;>
      cases ha : addressesGuardFires i.addresses i2.addresses <;>
        simp_all [Manager.updateTraits, map_store_ne_protected]

/-- Claim C1 witness: a run in which the validator smuggles a password
credential into the working identity; with default options the guard fires,
the snapshot is restored and no update call is traced. -/
theorem c1_updateTraits_protected_iff_witness :
    ((Manager.updateTraits false cRead cValidatorTamper cUpd 5 []).err =
        some Err.protectedFieldModified ↔
      ((newManagerOptions []).allowWriteProtectedTraits = false ∧
        (CredentialsEqual cTampered.credentials cIdentity.credentials = false ∨
          addressesGuardFires cIdentity.addresses cTampered.addresses = true))) ∧
    ((Manager.updateTraits false cRead cValidatorTamper cUpd 5 []).err =
        some Err.protectedFieldModified →
      (Manager.updateTraits false cRead cValidatorTamper cUpd 5 []).identity = some cIdentity ∧
      (Manager.updateTraits false cRead cValidatorTamper cUpd 5 []).trace.updateIdentityArgs = []) :=
  c1_updateTraits_protected_iff false cRead cValidatorTamper cUpd 5 [] cIdentity cTampered rfl rfl

/-- Claim C2: on an identity found by the store and traits that pass
validation (the validator contract does not mutate), `UpdateTraits` with
default options succeeds: it persists the identity with only `Traits`
replaced, leaving the persisted credentials and addresses equal to their
pre-call values. -/
theorem c2_updateTraits_default_frame
    (ctx : Bool) (read : Bool → Except StoreErr Identity) (validator : Validator)
    (upd : Bool → Identity → Option StoreErr) (t : Traits) (i : Identity)
    (hread : read ctx = Except.ok i)
    (hval : validator { i with traits := t } = ({ i with traits := t }, none))
    (hupd : upd ctx { i with traits := t } = none) :
    (Manager.updateTraits ctx read validator upd t []).err = none ∧
    (Manager.updateTraits ctx read validator upd t []).identity =
      some { i with traits := t } ∧
    (Manager.updateTraits ctx read validator upd t []).trace.updateIdentityArgs =
      [{ i with traits := t }] ∧
    ({ i with traits := t } : Identity).credentials = i.credentials ∧
    ({ i with traits := t } : Identity).addresses = i.addresses := by
  simp [Manager.updateTraits, hread, hval, newManagerOptions,
        CredentialsEqual_self, addressesGuardFires_self, hupd]

/-- Claim C2 witness: a concrete successful default-options trait update. -/
theorem c2_updateTraits_default_frame_witness :
    (Manager.updateTraits false cRead cValidatorOk cUpd 7 []).err = none ∧
    (Manager.updateTraits false cRead cValidatorOk cUpd 7 []).identity =
      some { cIdentity with traits := 7 } ∧
    (Manager.updateTraits false cRead cValidatorOk cUpd 7 []).trace.updateIdentityArgs =
      [{ cIdentity with traits := 7 }] ∧
    ({ cIdentity with traits := 7 } : Identity).credentials = cIdentity.credentials ∧
    ({ cIdentity with traits := 7 } : Identity).addresses = cIdentity.addresses :=
  c2_updateTraits_default_frame false cRead cValidatorOk cUpd 7 cIdentity rfl rfl rfl

/-- Claim C5: whenever the trait validator reports a structured schema
validation failure, `Create`, `Update` and `UpdateTraits` return a generic
bad-request error wrapping the failure unless `ExposeValidationErrors` was
passed, in which case the structured failure is returned verbatim; in
either case they return immediately, invoking no store create or update. -/
theorem c5_validation_redaction
    (ctx : Bool) (validator : Validator)
    (cr up : Bool → Identity → Option StoreErr)
    (read : Bool → Except StoreErr Identity)
    (i iW i1 i2 : Identity) (t : Traits) (d : Nat) (opts : List ManagerOption)
    (hv : validator i = (i1, some (VErr.schema d)))
    (hread : read ctx = Except.ok iW)
    (hvu : validator { iW with traits := t } = (i2, some (VErr.schema d))) :
    ((newManagerOptions opts).exposeValidationErrors = false →
      (Manager.create ctx validator cr i opts).err = some (Err.badRequestWrapped d) ∧
      (Manager.update ctx validator up i opts).err = some (Err.badRequestWrapped d) ∧
      (Manager.updateTraits ctx read validator up t opts).err =
        some (Err.badRequestWrapped d)) ∧
    ((newManagerOptions opts).exposeValidationErrors = true →
      (Manager.create ctx validator cr i opts).err = some (Err.schemaFailure d) ∧
      (Manager.update ctx validator up i opts).err = some (Err.schemaFailure d) ∧
      (Manager.updateTraits ctx read validator up t opts).err =
        some (Err.schemaFailure d)) ∧
    (Manager.create ctx validator cr i opts).trace.createIdentityArgs = [] ∧
    (Manager.update ctx validator up i opts).trace.updateIdentityArgs = [] ∧
    (Manager.updateTraits ctx read validator up t opts).trace.updateIdentityArgs = [] := by
  refine ⟨fun he => ?_, fun he => ?_, ?_⟩
  · simp [Manager.create, Manager.update, Manager.updateTraits, hv, hread, hvu,
          Manager.validateErr, he]
  · simp [Manager.create, Manager.update, Manager.updateTraits, hv, hread, hvu,
          Manager.validateErr, he]
  · refine ⟨?_, ?_, ?_⟩ <;>
      simp [Manager.create, Manager.update, Manager.updateTraits, hv, hread, hvu]

/-- Claim C5 witness: the redacted error with no options, the verbatim
error with `ManagerExposeValidationErrors`, and the absence of store
writes, on concrete runs. -/
theorem c5_validation_redaction_witness :
    (Manager.create false cValidatorSchemaFail cUpd cIdentity []).err =
      some (Err.badRequestWrapped 3) ∧
    (Manager.create false cValidatorSchemaFail cUpd cIdentity
        [managerExposeValidationErrors]).err = some (Err.schemaFailure 3) ∧
    (Manager.updateTraits false cRead cValidatorSchemaFail cUpd 7 []).trace.updateIdentityArgs =
      [] :=
  ⟨((c5_validation_redaction false cValidatorSchemaFail cUpd cUpd cRead cIdentity cIdentity
        cIdentity { cIdentity with traits := 7 } 7 3 [] rfl rfl rfl).1 rfl).1,
   ((c5_validation_redaction false cValidatorSchemaFail cUpd cUpd cRead cIdentity cIdentity
        cIdentity { cIdentity with traits := 7 } 7 3 [managerExposeValidationErrors]
        rfl rfl rfl).2.1 rfl).1,
   (c5_validation_redaction false cValidatorSchemaFail cUpd cUpd cRead cIdentity cIdentity
        cIdentity { cIdentity with traits := 7 } 7 3 [] rfl rfl rfl).2.2.2.2⟩

/-- Claim C8: a successful `RefreshVerifyAddress` with a positive lifespan
sets the freshly generated code and `ExpiresAt = now + lifespan` (strictly
after the call time), leaves `Value`, `Via` and `Verified` unchanged,
performs no trait validation and touches no identity traits or credentials
(no validator call, no identity store write), and persists the address via
the store's `UpdateVerifiableAddress`. -/
theorem c8_refreshVerifyAddress_spec
    (ctx : Bool) (c : String) (now lifespan : Int)
    (updA : Bool → VerifiableAddress → Option StoreErr) (a : VerifiableAddress)
    (hls : 0 < lifespan)
    (hupd : updA ctx { a with code := c, expiresAt := now + lifespan } = none) :
    (Manager.refreshVerifyAddress ctx (Except.ok c) now lifespan updA a).err = none ∧
    (Manager.refreshVerifyAddress ctx (Except.ok c) now lifespan updA a).address =
      { a with code := c, expiresAt := now + lifespan } ∧
    now < (Manager.refreshVerifyAddress ctx (Except.ok c) now lifespan updA a).address.expiresAt ∧
    (Manager.refreshVerifyAddress ctx (Except.ok c) now lifespan updA a).address.value =
      a.value ∧
    (Manager.refreshVerifyAddress ctx (Except.ok c) now lifespan updA a).address.via = a.via ∧
    (Manager.refreshVerifyAddress ctx (Except.ok c) now lifespan updA a).address.verified =
      a.verified ∧
    (Manager.refreshVerifyAddress ctx (Except.ok c) now lifespan updA a).trace.updateAddressArgs =
      [{ a with code := c, expiresAt := now + lifespan }] ∧
    (Manager.refreshVerifyAddress ctx (Except.ok c) now lifespan updA a).trace.validateArgs =
      [] ∧
    (Manager.refreshVerifyAddress ctx (Except.ok c) now lifespan updA a).trace.updateIdentityArgs =
      [] ∧
    (Manager.refreshVerifyAddress ctx (Except.ok c) now lifespan updA a).trace.createIdentityArgs =
      [] := by
  refine ⟨?_, ?_, ?_, ?_, ?_, ?_, ?_, ?_, ?_, ?_⟩ <;>
    simp [Manager.refreshVerifyAddress, hupd]
  omega

/-- Claim C8 witness: a concrete successful refresh with lifespan 1 at
time 0. -/
theorem c8_refreshVerifyAddress_spec_witness :
    (Manager.refreshVerifyAddress false (Except.ok "new") 0 1 cUpdAddr cAddress).err = none ∧
    (Manager.refreshVerifyAddress false (Except.ok "new") 0 1 cUpdAddr cAddress).address =
      { cAddress with code := "new", expiresAt := 0 + 1 } ∧
    (0 : Int) <
      (Manager.refreshVerifyAddress false (Except.ok "new") 0 1 cUpdAddr cAddress).address.expiresAt ∧
    (Manager.refreshVerifyAddress false (Except.ok "new") 0 1 cUpdAddr cAddress).address.value =
      cAddress.value ∧
    (Manager.refreshVerifyAddress false (Except.ok "new") 0 1 cUpdAddr cAddress).address.via =
      cAddress.via ∧
    (Manager.refreshVerifyAddress false (Except.ok "new") 0 1 cUpdAddr cAddress).address.verified =
      cAddress.verified ∧
    (Manager.refreshVerifyAddress false (Except.ok "new") 0 1 cUpdAddr cAddress).trace.updateAddressArgs =
      [{ cAddress with code := "new", expiresAt := 0 + 1 }] ∧
    (Manager.refreshVerifyAddress false (Except.ok "new") 0 1 cUpdAddr cAddress).trace.validateArgs =
      [] ∧
    (Manager.refreshVerifyAddress false (Except.ok "new") 0 1 cUpdAddr cAddress).trace.updateIdentityArgs =
      [] ∧
    (Manager.refreshVerifyAddress false (Except.ok "new") 0 1 cUpdAddr cAddress).trace.createIdentityArgs =
      [] :=
  c8_refreshVerifyAddress_spec false "new" 0 1 cUpdAddr cAddress (by decide) rfl

/-- Claim C9 counterexample: with an already-done context and a store that
rejects cancelled calls, `Create` still invokes the validator before
failing at the store write, and `RefreshVerifyAddress` still mutates the
in-memory address before failing, so no operation fails fast before
proceeding to the validator or applying a mutation. -/
theorem c9_context_counterexample :
    (Manager.create true cValidatorOk cUpdCtx cIdentity []).trace.validateArgs =
      [cIdentity] ∧
    (Manager.create true cValidatorOk cUpdCtx cIdentity []).err =
      some (Err.store StoreErr.canceled) ∧
    (Manager.refreshVerifyAddress true (Except.ok "new") 0 1 cUpdAddrCtx cAddress).address.code =
      "new" ∧
    (Manager.refreshVerifyAddress true (Except.ok "new") 0 1 cUpdAddrCtx cAddress).err =
      some (Err.store StoreErr.canceled) := by
  refine ⟨?_, ?_, ?_, ?_⟩ <;> rfl

/-- Claim C9 (amended): the manager performs no context-doneness check of
its own; the context is only forwarded to the store contract calls. With a
done context and a store that rejects cancelled calls, `UpdateTraits` fails
with the store's cancellation error at the confidential read, before the
validator or any write; `Create` and `Update` invoke the validator first
and then fail at the store write; and `RefreshVerifyAddress` sets the new
code and expiry on the in-memory address before failing at the store
write. -/
theorem c9_context_passthrough
    (read : Bool → Except StoreErr Identity) (validator : Validator)
    (cr up : Bool → Identity → Option StoreErr)
    (updA : Bool → VerifiableAddress → Option StoreErr)
    (i i' : Identity) (t : Traits) (a : VerifiableAddress) (c : String) (now ls : Int)
    (hread : read true = Except.error StoreErr.canceled)
    (hv : validator i = (i', none))
    (hcr : cr true i' = some StoreErr.canceled)
    (hup : up true i' = some StoreErr.canceled)
    (hupdA : updA true { a with code := c, expiresAt := now + ls } = some StoreErr.canceled) :
    ((Manager.updateTraits true read validator up t []).err =
        some (Err.store StoreErr.canceled) ∧
      (Manager.updateTraits true read validator up t []).trace.validateArgs = [] ∧
      (Manager.updateTraits true read validator up t []).trace.updateIdentityArgs = []) ∧
    ((Manager.create true validator cr i []).err = some (Err.store StoreErr.canceled) ∧
      (Manager.create true validator cr i []).trace.validateArgs = [i]) ∧
    ((Manager.update true validator up i []).err = some (Err.store StoreErr.canceled) ∧
      (Manager.update true validator up i []).trace.validateArgs = [i]) ∧
    ((Manager.refreshVerifyAddress true (Except.ok c) now ls updA a).err =
        some (Err.store StoreErr.canceled) ∧
      (Manager.refreshVerifyAddress true (Except.ok c) now ls updA a).address =
        { a with code := c, expiresAt := now + ls }) := by
  refine ⟨⟨?_, ?_, ?_⟩, ⟨?_, ?_⟩, ⟨?_, ?_⟩, ⟨?_, ?_⟩⟩ <;>
    simp [Manager.updateTraits, Manager.create, Manager.update,
          Manager.refreshVerifyAddress, hread, hv, hcr, hup, hupdA]

/-- Claim C9 witness: the amended behavior evaluated on concrete
context-honoring store models. -/
theorem c9_context_passthrough_witness :
    ((Manager.updateTraits true cReadCtx cValidatorOk cUpdCtx 7 []).err =
        some (Err.store StoreErr.canceled) ∧
      (Manager.updateTraits true cReadCtx cValidatorOk cUpdCtx 7 []).trace.validateArgs = [] ∧
      (Manager.updateTraits true cReadCtx cValidatorOk cUpdCtx 7 []).trace.updateIdentityArgs =
        []) ∧
    ((Manager.create true cValidatorOk cUpdCtx cIdentity []).err =
        some (Err.store StoreErr.canceled) ∧
      (Manager.create true cValidatorOk cUpdCtx cIdentity []).trace.validateArgs =
        [cIdentity]) ∧
    ((Manager.update true cValidatorOk cUpdCtx cIdentity []).err =
        some (Err.store StoreErr.canceled) ∧
      (Manager.update true cValidatorOk cUpdCtx cIdentity []).trace.validateArgs =
        [cIdentity]) ∧
    ((Manager.refreshVerifyAddress true (Except.ok "new") 0 1 cUpdAddrCtx cAddress).err =
        some (Err.store StoreErr.canceled) ∧
      (Manager.refreshVerifyAddress true (Except.ok "new") 0 1 cUpdAddrCtx cAddress).address =
        { cAddress with code := "new", expiresAt := 0 + 1 }) :=
  c9_context_passthrough cReadCtx cValidatorOk cUpdCtx cUpdCtx cUpdAddrCtx cIdentity cIdentity
    7 cAddress "new" 0 1 rfl rfl rfl rfl rfl
